import Mathlib

/-!
Verification development for the GitHub README searcher service.

The repository contains two near-identical searcher implementations:
`github_api_searcher.py` (the "legacy" variant) and `app/core/searcher.py`
(the "app" variant).  Both share the same pagination loop; they differ in
how accumulated raw records are mapped/sorted/truncated and in the README
retrieval strategy.  This file embeds both variants and proves the frozen
claims about them.
-/

/-- A raw repository record as returned by the upstream search endpoint
(`data['items']` elements).  Fields read with `repo['key']` in the source
are modelled as total fields (the upstream schema always provides them);
fields read with `repo.get(key, default)` are modelled as `Option`. -/
structure RawRepo where
  name : String
  full_name : String
  description : Option String
  stargazers_count : Option Int
  language : Option String
  html_url : String
deriving DecidableEq, Repr

/-- Outcome of one page request against the upstream search endpoint:
either HTTP 200 with the parsed `items` list, or a failure (non-200
status or a transport exception) — both handled by `break` in the source. -/
inductive PageResult where
  | success (items : List RawRepo)
  | failure
deriving DecidableEq, Repr

/-- Page size used by both variants: `per_page = min(100, limit * 2)`
(`github_api_searcher.py` line 74, `app/core/searcher.py` line 67). -/
def per_page (limit : Nat) : Nat := min 100 (limit * 2)

/-- The shared pagination loop of `search_repositories` (identical in both
variants): starting at `page = 1`, while fewer than `limit * 2` records are
accumulated and `page <= 3`, fetch a page; on success extend the
accumulator and stop if the page was short; on failure stop.  The first
component of the result records the page numbers actually requested, each
with page size `per_page limit`; the second is `all_repos` at loop exit. -/
def searchLoop (upstream : Nat → PageResult) (limit : Nat) (acc : List RawRepo)
    (page : Nat) : List Nat × List RawRepo :=
  if h : acc.length < limit * 2 ∧ page ≤ 3 then
    match upstream page with
    | PageResult.success items =>
      if items.length < per_page limit then
        ([page], acc ++ items)
      else
        let r := searchLoop upstream limit (acc ++ items) (page + 1)
        (page :: r.1, r.2)
    | PageResult.failure => ([page], acc)
  else ([], acc)
termination_by 4 - page
decreasing_by
  have h2 := h.2
  omega

/-- Concatenation of the first `j` upstream pages (`items 1 ++ ... ++ items j`);
used to state what the loop accumulated. -/
def accUpTo (items : Nat → List RawRepo) : Nat → List RawRepo
  | 0 => []
  | j + 1 => accUpTo items j ++ items (j + 1)

/-- A `for`-loop that applies a fallible operation to each element in order
and collects the results, propagating the first raised exception
(used to embed the conversion and enrichment loops). -/
def exceptMapList {α β : Type} (f : α → Except Unit β) : List α → Except Unit (List β)
  | [] => Except.ok []
  | x :: xs =>
    match f x with
    | Except.ok y =>
      match exceptMapList f xs with
      | Except.ok ys => Except.ok (y :: ys)
      | Except.error e => Except.error e
    | Except.error e => Except.error e

/-- The `RepositoryInfo` dataclass shared by both variants
(`app/core/models.py`, `github_api_searcher.py`). -/
structure RepositoryInfo where
  name : String
  full_name : String
  description : String
  stars : Int
  language : String
  url : String
  readme_content : Option String := none
deriving DecidableEq, Repr

/-- Mapping of one raw record in the app variant
(`app/core/searcher.py` lines 102-109): `description`/`language` via
`.get` with defaults, `stargazers_count` via `.get` with default `0`. -/
def toRepoInfoApp (repo : RawRepo) : RepositoryInfo :=
  { name := repo.name
    full_name := repo.full_name
    description := repo.description.getD ""
    stars := repo.stargazers_count.getD 0
    language := repo.language.getD "Unknown"
    url := repo.html_url
    readme_content := none }

/-- Mapping of one raw record in the legacy variant
(`github_api_searcher.py` lines 108-115): `description`/`language` via
`.get` with defaults, but `repo['stargazers_count']` raises `KeyError`
when the key is absent — modelled as `Except.error`. -/
def toRepoInfoLegacy (repo : RawRepo) : Except Unit RepositoryInfo :=
  match repo.stargazers_count with
  | some s =>
    Except.ok
      { name := repo.name
        full_name := repo.full_name
        description := repo.description.getD ""
        stars := s
        language := repo.language.getD "Unknown"
        url := repo.html_url
        readme_content := none }
  | none => Except.error ()

/-- `search_repositories` of the app variant (`app/core/searcher.py`
lines 48-112): run the pagination loop, truncate `all_repos` to `limit`
in arrival order, then map each raw record. -/
def search_repositories_app (upstream : Nat → PageResult) (limit : Nat) :
    List RepositoryInfo :=
  (((searchLoop upstream limit [] 1).2).take limit).map toRepoInfoApp

/-- `search_repositories` of the legacy variant (`github_api_searcher.py`
lines 52-124): run the pagination loop, map every raw record (a missing
`stargazers_count` raises out of the function), then sort by stars
descending with Python's stable `list.sort` and truncate to `limit`. -/
def search_repositories_legacy (upstream : Nat → PageResult) (limit : Nat) :
    Except Unit (List RepositoryInfo) := do
  let all_repos := (searchLoop upstream limit [] 1).2
  let repositories ← exceptMapList toRepoInfoLegacy all_repos
  let sorted := repositories.mergeSort (fun a b => decide (b.stars ≤ a.stars))
  pure (sorted.take limit)

/-- Model of `owner, repo_name = full_name.split('/', 1)` scanning for the
first `'/'`: everything before it and everything after it.  When the string
has no `'/'`, the two-variable unpacking raises `ValueError`, modelled as
`Except.error`. -/
def splitFirstGo (accRev : List Char) : List Char → Except Unit (String × String)
  | [] => Except.error ()
  | c :: rest =>
    if c = '/' then Except.ok (String.mk accRev.reverse, String.mk rest)
    else splitFirstGo (c :: accRev) rest

/-- Split `full_name` on the first `'/'` into owner and repository name
(`search_and_get_readmes`, both variants). -/
def splitFirst (s : String) : Except Unit (String × String) :=
  splitFirstGo [] s.data

/-- Value of one base64 alphabet character (model of the table used by
`base64.b64decode`). -/
def b64CharVal (c : Char) : Option Nat :=
  if 'A' ≤ c ∧ c ≤ 'Z' then some (c.toNat - 'A'.toNat)
  else if 'a' ≤ c ∧ c ≤ 'z' then some (c.toNat - 'a'.toNat + 26)
  else if '0' ≤ c ∧ c ≤ '9' then some (c.toNat - '0'.toNat + 52)
  else if c = '+' then some 62
  else if c = '/' then some 63
  else none

/-- Decode base64 four characters at a time, honouring `=` padding in the
final group; any malformed input yields `none` (model of `base64.b64decode`
raising `binascii.Error`). -/
def b64DecodeGroups : List Char → Option (List Nat)
  | [] => some []
  | c1 :: c2 :: c3 :: c4 :: rest =>
    match b64CharVal c1, b64CharVal c2 with
    | some v1, some v2 =>
      if c3 = '=' then
        if c4 = '=' ∧ rest = [] then some [v1 * 4 + v2 / 16]
        else none
      else
        match b64CharVal c3 with
        | some v3 =>
          if c4 = '=' then
            if rest = [] then some [v1 * 4 + v2 / 16, (v2 % 16) * 16 + v3 / 4]
            else none
          else
            match b64CharVal c4 with
            | some v4 =>
              match b64DecodeGroups rest with
              | some tail =>
                some ((v1 * 4 + v2 / 16) :: ((v2 % 16) * 16 + v3 / 4) ::
                      ((v3 % 4) * 64 + v4) :: tail)
              | none => none
            | none => none
        | none => none
    | _, _ => none
  | _ => none

/-- Strict UTF-8 decoding of a byte sequence (model of `bytes.decode('utf-8')`);
`none` models `UnicodeDecodeError` (continuation, overlong and surrogate
checks included). -/
def utf8Decode : List Nat → Option (List Char)
  | [] => some []
  | b :: rest =>
    if h1 : b < 0x80 then
      match utf8Decode rest with
      | some cs => some (Char.ofNat b :: cs)
      | none => none
    else if 0xC2 ≤ b ∧ b ≤ 0xDF then
      match rest with
      | b2 :: rest2 =>
        if 0x80 ≤ b2 ∧ b2 ≤ 0xBF then
          match utf8Decode rest2 with
          | some cs => some (Char.ofNat ((b - 0xC0) * 64 + (b2 - 0x80)) :: cs)
          | none => none
        else none
      | [] => none
    else if 0xE0 ≤ b ∧ b ≤ 0xEF then
      match rest with
      | b2 :: b3 :: rest3 =>
        if (0x80 ≤ b2 ∧ b2 ≤ 0xBF) ∧ (0x80 ≤ b3 ∧ b3 ≤ 0xBF) ∧
           (b = 0xE0 → 0xA0 ≤ b2) ∧ (b = 0xED → b2 ≤ 0x9F) then
          match utf8Decode rest3 with
          | some cs =>
            some (Char.ofNat ((b - 0xE0) * 4096 + (b2 - 0x80) * 64 + (b3 - 0x80)) :: cs)
          | none => none
        else none
      | _ => none
    else if 0xF0 ≤ b ∧ b ≤ 0xF4 then
      match rest with
      | b2 :: b3 :: b4 :: rest4 =>
        if (0x80 ≤ b2 ∧ b2 ≤ 0xBF) ∧ (0x80 ≤ b3 ∧ b3 ≤ 0xBF) ∧
           (0x80 ≤ b4 ∧ b4 ≤ 0xBF) ∧ (b = 0xF0 → 0x90 ≤ b2) ∧
           (b = 0xF4 → b2 ≤ 0x8F) then
          match utf8Decode rest4 with
          | some cs =>
            some (Char.ofNat ((b - 0xF0) * 262144 + (b2 - 0x80) * 4096 +
                              (b3 - 0x80) * 64 + (b4 - 0x80)) :: cs)
          | none => none
        else none
      | _ => none
    else none

/-- Model of `base64.b64decode(content).decode('utf-8')`: base64-decode to
bytes, then strict UTF-8 decode; `none` models either library call raising. -/
def pyB64DecodeUtf8 (s : String) : Option String :=
  match b64DecodeGroups s.data with
  | some bytes =>
    match utf8Decode bytes with
    | some cs => some (String.mk cs)
    | none => none
  | none => none

/-- Outcome of the single request made by the app variant's
`get_readme_content` against the `/repos/{owner}/{repo}/readme` endpoint:
HTTP 200 with the (possibly missing) `content`/`encoding` JSON fields, a
non-200 status, or an exception while requesting/parsing. -/
inductive ReadmeResponse where
  | success (content : Option String) (encoding : Option String)
  | httpError
  | raiseError
deriving DecidableEq, Repr

/-- Body of the `try` block in the app variant's `get_readme_content`
(`app/core/searcher.py` lines 130-145): an `Except.error` is an exception
reaching the `except` clause (transport/parse failure, or
`base64`/`utf-8` decoding raising). -/
def tryGetReadmeApp (resp : ReadmeResponse) : Except Unit (Option String) :=
  match resp with
  | ReadmeResponse.raiseError => Except.error ()
  | ReadmeResponse.httpError => Except.ok none
  | ReadmeResponse.success content encoding =>
    let c := content.getD ""
    let e := encoding.getD "base64"
    if e = "base64" then
      match pyB64DecodeUtf8 c with
      | some text => Except.ok (some text)
      | none => Except.error ()
    else Except.ok (some c)

/-- `get_readme_content` of the app variant: the whole body runs inside
`try`, and the `except` clause returns `None`. -/
def get_readme_content_app (resp : ReadmeResponse) : Option String :=
  match tryGetReadmeApp resp with
  | Except.ok v => v
  | Except.error _ => none

/-- Outcome of one `/repos/{owner}/{repo}/contents/{file}` request in the
legacy variant: HTTP 200 with the (possibly missing) `download_url`, a
non-200 status, or an exception. -/
inductive ContentsResp where
  | success (download_url : Option String)
  | httpError
  | raiseError
deriving DecidableEq, Repr

/-- Outcome of the follow-up GET on a `download_url` in the legacy variant:
HTTP 200 with decodable text, HTTP 200 with text that fails to decode
(`.text()` raising), a non-200 status, or a transport exception. -/
inductive DownloadResp where
  | success (text : String)
  | decodeError
  | httpError
  | raiseError
deriving DecidableEq, Repr

/-- One loop iteration of the legacy `get_readme_content` for a single
candidate filename (`github_api_searcher.py` lines 139-158): it returns
text only when the contents request is 200 with a usable `download_url`
and the follow-up GET is 200 with decodable text; every other path
(including a caught exception) falls through to the next filename. -/
def legacyAttempt (c : ContentsResp) (download : String → DownloadResp) :
    Option String :=
  match c with
  | ContentsResp.success (some url) =>
    match download url with
    | DownloadResp.success text => some text
    | _ => none
  | _ => none

/-- Candidate README filenames tried in order by the legacy variant. -/
def readme_files : List String := ["README.md", "README.rst", "README.txt", "README"]

/-- The `for readme_file in readme_files` loop of the legacy
`get_readme_content`: first successful attempt wins, otherwise `None`. -/
def readmeFilesGo (contents : String → ContentsResp)
    (download : String → DownloadResp) : List String → Option String
  | [] => none
  | f :: rest =>
    match legacyAttempt (contents f) download with
    | some text => some text
    | none => readmeFilesGo contents download rest

/-- `get_readme_content` of the legacy variant (`github_api_searcher.py`
lines 126-162). -/
def get_readme_content_legacy (contents : String → ContentsResp)
    (download : String → DownloadResp) : Option String :=
  readmeFilesGo contents download readme_files

/-- The enrichment phase of `search_and_get_readmes` (identical in both
variants): split each record's `full_name` on the first `'/'` (outside any
`try`), fetch its README, and attach the result to `readme_content`.  The
per-record `try/except` wraps only the await/assignment, and the fetcher
itself never raises, so the fetch result is attached directly. -/
def enrichReadmes (fetch : String → String → Option String)
    (repositories : List RepositoryInfo) : Except Unit (List RepositoryInfo) :=
  exceptMapList (fun repo => do
    let (owner, repo_name) ← splitFirst repo.full_name
    pure { repo with readme_content := fetch owner repo_name }) repositories

/-- `search_and_get_readmes` of the app variant (`app/core/searcher.py`
lines 147-177), with the readme endpoint modelled as a function from
(owner, repo name) to its response. -/
def search_and_get_readmes_app (upstream : Nat → PageResult)
    (env : String → String → ReadmeResponse) (limit : Nat) :
    Except Unit (List RepositoryInfo) :=
  enrichReadmes (fun owner repo => get_readme_content_app (env owner repo))
    (search_repositories_app upstream limit)

/-- `search_and_get_readmes` of the legacy variant (`github_api_searcher.py`
lines 164-194). -/
def search_and_get_readmes_legacy (upstream : Nat → PageResult)
    (contents : String → String → String → ContentsResp)
    (download : String → DownloadResp) (limit : Nat) :
    Except Unit (List RepositoryInfo) := do
  let repositories ← search_repositories_legacy upstream limit
  enrichReadmes
    (fun owner repo => get_readme_content_legacy (contents owner repo) download)
    repositories

/-- The module-level `_search_stats` dictionary of `app/api/routes.py`
(lines 23-27); the domain map is modelled as its lookup function with
`.get(domain, 0)` semantics. -/
structure SearchStats where
  total_searches : Nat
  total_repositories_found : Nat
  searched_domains : String → Nat

/-- Initial value of `_search_stats`: zero counters, empty domain map. -/
def initialSearchStats : SearchStats :=
  { total_searches := 0
    total_repositories_found := 0
    searched_domains := fun _ => 0 }

/-- The three statistics updates performed by every search route on
success (`app/api/routes.py` lines 82-85, 107-109, and the two other
search handlers). -/
def updateSearchStats (stats : SearchStats) (domain : String) (numRepos : Nat) :
    SearchStats :=
  { total_searches := stats.total_searches + 1
    total_repositories_found := stats.total_repositories_found + numRepos
    searched_domains := fun d =>
      if d = domain then stats.searched_domains d + 1 else stats.searched_domains d }

/-- The events of the HTTP route layer that could touch `_search_stats`:
a search request that completed with `numRepos` results, a search request
that raised before the update, and the read-only routes. -/
inductive RouteEvent where
  | searchCompleted (domain : String) (numRepos : Nat)
  | searchErrored
  | rootRequested
  | healthRequested
  | domainsRequested
  | statsRequested
deriving DecidableEq

/-- Effect of each route event on `_search_stats`, as read off
`app/api/routes.py`: only a completed search mutates the statistics. -/
def statsStep (stats : SearchStats) : RouteEvent → SearchStats
  | RouteEvent.searchCompleted domain n => updateSearchStats stats domain n
  | RouteEvent.searchErrored => stats
  | RouteEvent.rootRequested => stats
  | RouteEvent.healthRequested => stats
  | RouteEvent.domainsRequested => stats
  | RouteEvent.statsRequested => stats


/-- A response of the app variant's readme endpoint on which the fetch
fails: a non-success status, an exception while requesting or parsing the
body, or a successful response whose content does not decode under the
(defaulted) `base64` encoding. -/
def readmeRespFails (resp : ReadmeResponse) : Prop :=
  match resp with
  | ReadmeResponse.httpError => True
  | ReadmeResponse.raiseError => True
  | ReadmeResponse.success content encoding =>
    encoding.getD "base64" = "base64" ∧ pyB64DecodeUtf8 (content.getD "") = none

/-- A failing attempt for one candidate filename in the legacy variant:
the contents request is not a 200 with a usable `download_url`, or the
follow-up download does not yield decodable text. -/
def contentsAttemptFails (c : ContentsResp) (download : String → DownloadResp) :
    Prop :=
  match c with
  | ContentsResp.success (some url) =>
    match download url with
    | DownloadResp.success _ => False
    | _ => True
  | ContentsResp.success none => True
  | ContentsResp.httpError => True
  | ContentsResp.raiseError => True


/-- Concrete fixture: a well-formed raw record with one star. -/
def rawOne : RawRepo := ⟨"n", "o/n", none, some 1, none, "u"⟩

/-- Concrete fixture: an upstream whose first page holds exactly `rawOne`. -/
def upstreamOne : Nat → PageResult :=
  fun p => if p = 1 then PageResult.success [rawOne] else PageResult.failure

/-- Concrete fixture: a raw record with one star, listed first. -/
def rawLow : RawRepo := ⟨"a", "o/a", none, some 1, none, "ua"⟩

/-- Concrete fixture: a raw record with five stars, listed second. -/
def rawHigh : RawRepo := ⟨"b", "o/b", none, some 5, none, "ub"⟩

/-- Concrete fixture: an upstream whose first page lists a one-star record
before a five-star record. -/
def upstreamUnsorted : Nat → PageResult :=
  fun p => if p = 1 then PageResult.success [rawLow, rawHigh] else PageResult.failure

/-- Concrete fixture: an upstream on which every page request fails. -/
def upstreamAllFail : Nat → PageResult := fun _ => PageResult.failure

-- Step lemmas for `searchLoop` (the loop body is well-founded, so concrete
-- runs are evaluated through these equations).

theorem searchLoop_stop (upstream : Nat → PageResult) (limit : Nat)
    (acc : List RawRepo) (page : Nat)
    (h : ¬(acc.length < limit * 2 ∧ page ≤ 3)) :
    searchLoop upstream limit acc page = ([], acc) := by
  rw [searchLoop]
  simp [h]

theorem searchLoop_fail (upstream : Nat → PageResult) (limit : Nat)
    (acc : List RawRepo) (page : Nat)
    (h : acc.length < limit * 2 ∧ page ≤ 3)
    (hf : upstream page = PageResult.failure) :
    searchLoop upstream limit acc page = ([page], acc) := by
  rw [searchLoop]
  simp [h, hf]

theorem searchLoop_short (upstream : Nat → PageResult) (limit : Nat)
    (acc : List RawRepo) (page : Nat) (items : List RawRepo)
    (h : acc.length < limit * 2 ∧ page ≤ 3)
    (hs : upstream page = PageResult.success items)
    (hshort : items.length < per_page limit) :
    searchLoop upstream limit acc page = ([page], acc ++ items) := by
  rw [searchLoop]
  simp [h, hs, hshort]

theorem searchLoop_cont (upstream : Nat → PageResult) (limit : Nat)
    (acc : List RawRepo) (page : Nat) (items : List RawRepo)
    (h : acc.length < limit * 2 ∧ page ≤ 3)
    (hs : upstream page = PageResult.success items)
    (hlong : ¬ items.length < per_page limit) :
    searchLoop upstream limit acc page =
      ((page :: (searchLoop upstream limit (acc ++ items) (page + 1)).1),
       (searchLoop upstream limit (acc ++ items) (page + 1)).2) := by
  rw [searchLoop]
  simp [h, hs, hlong]

/-- Every record accumulated by the loop comes from the input accumulator
or from some successful upstream page. -/
theorem searchLoop_mem (upstream : Nat → PageResult) (limit : Nat) :
    ∀ (n page : Nat) (acc : List RawRepo), 4 - page ≤ n →
      ∀ r ∈ (searchLoop upstream limit acc page).2,
        r ∈ acc ∨ ∃ p items, upstream p = PageResult.success items ∧ r ∈ items := by
  intro n
  induction n with
  | zero =>
    intro page acc hn r hr
    rw [searchLoop_stop upstream limit acc page (by omega)] at hr
    exact Or.inl hr
  | succ n ih =>
    intro page acc hn r hr
    by_cases hc : acc.length < limit * 2 ∧ page ≤ 3
    · cases hu : upstream page with
      | success items =>
        by_cases hshort : items.length < per_page limit
        · rw [searchLoop_short upstream limit acc page items hc hu hshort] at hr
          rcases List.mem_append.mp hr with hl | hri
          · exact Or.inl hl
          · exact Or.inr ⟨page, items, hu, hri⟩
        · rw [searchLoop_cont upstream limit acc page items hc hu hshort] at hr
          have := ih (page + 1) (acc ++ items) (by omega) r hr
          rcases this with hl | hx
          · rcases List.mem_append.mp hl with hl2 | hri
            · exact Or.inl hl2
            · exact Or.inr ⟨page, items, hu, hri⟩
          · exact Or.inr hx
      | failure =>
        rw [searchLoop_fail upstream limit acc page hc hu] at hr
        exact Or.inl hr
    · rw [searchLoop_stop upstream limit acc page hc] at hr
      exact Or.inl hr

/-- Characterisation of a successful `exceptMapList` run: output length
matches, and each output position is the successful image of the
corresponding input position. -/
theorem exceptMapList_ok_spec {α β : Type} (f : α → Except Unit β) :
    ∀ (xs : List α) (ys : List β), exceptMapList f xs = Except.ok ys →
      ys.length = xs.length ∧
      ∀ i (hi : i < xs.length),
        ∃ y, f (xs.get ⟨i, hi⟩) = Except.ok y ∧ ys[i]? = some y := by
  intro xs
  induction xs with
  | nil =>
    intro ys h
    simp only [exceptMapList] at h
    cases h
    exact ⟨rfl, fun i hi => absurd hi (by simp)⟩
  | cons x xs ih =>
    intro ys h
    simp only [exceptMapList] at h
    cases hfx : f x with
    | error e => rw [hfx] at h; cases h
    | ok y =>
      rw [hfx] at h
      cases hrest : exceptMapList f xs with
      | error e => rw [hrest] at h; cases h
      | ok ys' =>
        rw [hrest] at h
        cases h
        rcases ih ys' hrest with ⟨hlen, hidx⟩
        refine ⟨by simp [hlen], fun i hi => ?_⟩
        cases i with
        | zero => exact ⟨y, hfx, by simp⟩
        | succ j =>
          rcases hidx j (by simpa using hi) with ⟨z, hz, hz2⟩
          exact ⟨z, hz, by simpa using hz2⟩

/-- A successful `exceptMapList` run means every input succeeded. -/
theorem exceptMapList_ok_forall {α β : Type} (f : α → Except Unit β)
    (xs : List α) (ys : List β) (h : exceptMapList f xs = Except.ok ys) :
    ∀ x ∈ xs, ∃ y, f x = Except.ok y := by
  intro x hx
  rcases List.mem_iff_get.mp hx with ⟨⟨i, hi⟩, rfl⟩
  rcases (exceptMapList_ok_spec f xs ys h).2 i hi with ⟨y, hy, _⟩
  exact ⟨y, hy⟩

/-- Every successful output element is the image of some input element. -/
theorem exceptMapList_ok_mem {α β : Type} (f : α → Except Unit β)
    (xs : List α) (ys : List β) (h : exceptMapList f xs = Except.ok ys) :
    ∀ y ∈ ys, ∃ x ∈ xs, f x = Except.ok y := by
  intro y hy
  rcases List.mem_iff_get.mp hy with ⟨⟨i, hi⟩, rfl⟩
  rcases exceptMapList_ok_spec f xs ys h with ⟨hlen, hidx⟩
  have hi' : i < xs.length := by omega
  rcases hidx i hi' with ⟨z, hz, hz2⟩
  have : ys.get ⟨i, hi⟩ = z := by
    have := List.getElem?_eq_getElem hi
    simp only [List.get_eq_getElem]
    rw [this] at hz2
    exact Option.some.inj hz2
  exact ⟨xs.get ⟨i, hi'⟩, List.get_mem xs i hi', by rw [this]; exact hz⟩

/-- When every input succeeds, `exceptMapList` succeeds. -/
theorem exceptMapList_all_ok {α β : Type} (f : α → Except Unit β) :
    ∀ (xs : List α), (∀ x ∈ xs, ∃ y, f x = Except.ok y) →
      ∃ ys, exceptMapList f xs = Except.ok ys := by
  intro xs
  induction xs with
  | nil => exact fun _ => ⟨[], rfl⟩
  | cons x xs ih =>
    intro hall
    rcases hall x (List.mem_cons_self x xs) with ⟨y, hy⟩
    rcases ih (fun z hz => hall z (List.mem_cons_of_mem x hz)) with ⟨ys, hys⟩
    exact ⟨y :: ys, by simp only [exceptMapList, hy, hys]⟩

/-- When some input raises, the whole loop raises. -/
theorem exceptMapList_error {α β : Type} (f : α → Except Unit β)
    (xs : List α) (x : α) (hx : x ∈ xs) (hfx : f x = Except.error ()) :
    exceptMapList f xs = Except.error () := by
  cases hres : exceptMapList f xs with
  | ok ys =>
    rcases exceptMapList_ok_forall f xs ys hres x hx with ⟨y, hy⟩
    rw [hfx] at hy
    cases hy
  | error e => cases e; rfl

/-- Splitting a character list with no `'/'` raises. -/
theorem splitFirstGo_error : ∀ (cs : List Char) (accRev : List Char),
    ('/' : Char) ∉ cs → splitFirstGo accRev cs = Except.error () := by
  intro cs
  induction cs with
  | nil => intro accRev _; rfl
  | cons c rest ih =>
    intro accRev h
    have hc : ¬ c = '/' := fun hh => h (by simp [hh])
    simp only [splitFirstGo, if_neg hc]
    exact ih _ (fun hh => h (List.mem_cons_of_mem c hh))

/-- Splitting a character list containing `'/'` succeeds. -/
theorem splitFirstGo_ok : ∀ (cs : List Char) (accRev : List Char),
    ('/' : Char) ∈ cs → ∃ p, splitFirstGo accRev cs = Except.ok p := by
  intro cs
  induction cs with
  | nil => intro accRev h; cases h
  | cons c rest ih =>
    intro accRev h
    by_cases hc : c = '/'
    · exact ⟨(String.mk accRev.reverse, String.mk rest),
        by simp only [splitFirstGo, if_pos hc]⟩
    · have : ('/' : Char) ∈ rest := by
        rcases List.mem_cons.mp h with h1 | h2
        · exact absurd h1.symm hc
        · exact h2
      rcases ih (c :: accRev) this with ⟨p, hp⟩
      exact ⟨p, by simp only [splitFirstGo, if_neg hc]; exact hp⟩

/-- `full_name.split('/', 1)` two-variable unpacking raises exactly when
the string has no `'/'`. -/
theorem splitFirst_error (s : String) (h : ('/' : Char) ∉ s.data) :
    splitFirst s = Except.error () :=
  splitFirstGo_error s.data [] h

/-- Splitting a string containing `'/'` succeeds. -/
theorem splitFirst_ok (s : String) (h : ('/' : Char) ∈ s.data) :
    ∃ p, splitFirst s = Except.ok p :=
  splitFirstGo_ok s.data [] h

/-- Characterisation of a successful enrichment run: same length, and each
output position is its input record with exactly the `readme_content`
field replaced by the fetch result for its own owner/name split. -/
theorem enrichReadmes_ok_spec (fetch : String → String → Option String)
    (repos result : List RepositoryInfo)
    (h : enrichReadmes fetch repos = Except.ok result) :
    result.length = repos.length ∧
    ∀ i (hi : i < repos.length), ∃ o n,
      splitFirst (repos.get ⟨i, hi⟩).full_name = Except.ok (o, n) ∧
      result[i]? = some { repos.get ⟨i, hi⟩ with readme_content := fetch o n } := by
  rcases exceptMapList_ok_spec _ repos result h with ⟨hlen, hidx⟩
  refine ⟨hlen, fun i hi => ?_⟩
  rcases hidx i hi with ⟨y, hy, hy2⟩
  cases hsp : splitFirst (repos.get ⟨i, hi⟩).full_name with
  | error e =>
    rw [hsp] at hy
    cases hy
  | ok p =>
    rcases p with ⟨o, n⟩
    rw [hsp] at hy
    simp only [Except.bind, pure, Except.pure] at hy
    cases hy
    exact ⟨o, n, rfl, hy2⟩

/-- A failing attempt produces no text. -/
theorem legacyAttempt_of_fails (c : ContentsResp) (download : String → DownloadResp)
    (h : contentsAttemptFails c download) : legacyAttempt c download = none := by
  cases c with
  | success u =>
    cases u with
    | some url =>
      simp only [contentsAttemptFails] at h
      simp only [legacyAttempt]
      cases hdl : download url with
      | success text => rw [hdl] at h; exact absurd h (by simp)
      | decodeError => simp [hdl]
      | httpError => simp [hdl]
      | raiseError => simp [hdl]
    | none => rfl
  | httpError => rfl
  | raiseError => rfl

/-- C7: when the direct README endpoint responds successfully,
`get_readme_content` returns the base64-decoded UTF-8 text of the content
field if the encoding field equals "base64" (and absent when that decoding
raises), and the content field unchanged otherwise; in particular content
"SGVsbG8gV29ybGQ=" with encoding "base64" yields exactly "Hello World". -/
theorem c7_readme_decode :
    (∀ content encoding : String,
      get_readme_content_app (ReadmeResponse.success (some content) (some encoding)) =
        if encoding = "base64" then pyB64DecodeUtf8 content else some content)
    ∧ get_readme_content_app
        (ReadmeResponse.success (some "SGVsbG8gV29ybGQ=") (some "base64")) =
      some "Hello World" := by
  constructor
  · intro content encoding
    simp only [get_readme_content_app, tryGetReadmeApp, Option.getD_some]
    by_cases he : encoding = "base64"
    · rw [if_pos he, if_pos he]
      cases hd : pyB64DecodeUtf8 content <;> simp [hd]
    · rw [if_neg he, if_neg he]
  · decide

/-- C8: the mapping of a raw upstream record into a `RepositoryInfo`
defaults a missing description to the empty string and a missing language
to "Unknown", and carries every present field over unchanged — in both the
app and the legacy variant. -/
theorem c8_field_defaults :
    (∀ repo : RawRepo,
      (toRepoInfoApp repo).name = repo.name ∧
      (toRepoInfoApp repo).full_name = repo.full_name ∧
      (toRepoInfoApp repo).url = repo.html_url ∧
      (toRepoInfoApp repo).readme_content = none ∧
      (repo.description = none → (toRepoInfoApp repo).description = "") ∧
      (∀ d, repo.description = some d → (toRepoInfoApp repo).description = d) ∧
      (repo.language = none → (toRepoInfoApp repo).language = "Unknown") ∧
      (∀ lg, repo.language = some lg → (toRepoInfoApp repo).language = lg) ∧
      (∀ st, repo.stargazers_count = some st → (toRepoInfoApp repo).stars = st))
    ∧ (∀ (repo : RawRepo) (info : RepositoryInfo),
        toRepoInfoLegacy repo = Except.ok info →
        info.name = repo.name ∧
        info.full_name = repo.full_name ∧
        info.url = repo.html_url ∧
        info.readme_content = none ∧
        (repo.description = none → info.description = "") ∧
        (∀ d, repo.description = some d → info.description = d) ∧
        (repo.language = none → info.language = "Unknown") ∧
        (∀ lg, repo.language = some lg → info.language = lg) ∧
        (∀ st, repo.stargazers_count = some st → info.stars = st)) := by
  constructor
  · intro repo
    refine ⟨rfl, rfl, rfl, rfl, ?_, ?_, ?_, ?_, ?_⟩
    · intro h; simp [toRepoInfoApp, h]
    · intro d h; simp [toRepoInfoApp, h]
    · intro h; simp [toRepoInfoApp, h]
    · intro lg h; simp [toRepoInfoApp, h]
    · intro st h; simp [toRepoInfoApp, h]
  · intro repo info h
    cases hsc : repo.stargazers_count with
    | none =>
      simp only [toRepoInfoLegacy, hsc] at h
      exact Except.noConfusion h
    | some s =>
      simp only [toRepoInfoLegacy, hsc] at h
      injection h with h2
      subst h2
      refine ⟨rfl, rfl, rfl, rfl, ?_, ?_, ?_, ?_, ?_⟩
      · intro hd; simp [hd]
      · intro d hd; simp [hd]
      · intro hl; simp [hl]
      · intro lg hl; simp [hl]
      · intro st hst
        simp only [hsc, Option.some.injEq] at hst
        subst hst
        rfl

/-- Witness for C8 at a record with absent description and language. -/
theorem c8_witness :
    (toRepoInfoApp ⟨"n", "o/n", none, some 5, none, "u"⟩).description = "" ∧
    (toRepoInfoApp ⟨"n", "o/n", none, some 5, none, "u"⟩).language = "Unknown" ∧
    (toRepoInfoApp ⟨"n", "o/n", none, some 5, none, "u"⟩).stars = 5 :=
  ⟨(c8_field_defaults.1 ⟨"n", "o/n", none, some 5, none, "u"⟩).2.2.2.2.1 rfl,
   (c8_field_defaults.1 ⟨"n", "o/n", none, some 5, none, "u"⟩).2.2.2.2.2.2.1 rfl,
   (c8_field_defaults.1 ⟨"n", "o/n", none, some 5, none, "u"⟩).2.2.2.2.2.2.2.2 5 rfl⟩

/-- C9: the usage statistics start with all counters zero and an empty
domain map; every completed search increments the total search count by
one, adds the number of returned repositories, and increments the queried
domain's occurrence count by one (other domains unchanged); no other route
event modifies the statistics. -/
theorem c9_usage_stats :
    (initialSearchStats.total_searches = 0 ∧
     initialSearchStats.total_repositories_found = 0 ∧
     ∀ d, initialSearchStats.searched_domains d = 0) ∧
    (∀ (s : SearchStats) (d : String) (n : Nat),
      (statsStep s (RouteEvent.searchCompleted d n)).total_searches =
        s.total_searches + 1 ∧
      (statsStep s (RouteEvent.searchCompleted d n)).total_repositories_found =
        s.total_repositories_found + n ∧
      (statsStep s (RouteEvent.searchCompleted d n)).searched_domains d =
        s.searched_domains d + 1 ∧
      ∀ d', d' ≠ d →
        (statsStep s (RouteEvent.searchCompleted d n)).searched_domains d' =
          s.searched_domains d') ∧
    (∀ s : SearchStats,
      statsStep s RouteEvent.searchErrored = s ∧
      statsStep s RouteEvent.rootRequested = s ∧
      statsStep s RouteEvent.healthRequested = s ∧
      statsStep s RouteEvent.domainsRequested = s ∧
      statsStep s RouteEvent.statsRequested = s) := by
  refine ⟨⟨rfl, rfl, fun d => rfl⟩, ?_, fun s => ⟨rfl, rfl, rfl, rfl, rfl⟩⟩
  intro s d n
  refine ⟨rfl, rfl, ?_, ?_⟩
  · simp [statsStep, updateSearchStats]
  · intro d' hd'
    simp [statsStep, updateSearchStats, hd']

/-- Witness for C9: a search for "python" leaves the "rust" counter alone. -/
theorem c9_witness :
    (statsStep initialSearchStats
      (RouteEvent.searchCompleted "python" 2)).searched_domains "rust" =
      initialSearchStats.searched_domains "rust" :=
  (c9_usage_stats.2.1 initialSearchStats "python" 2).2.2.2 "rust" (by decide)

/-- C10: in `search_and_get_readmes` the owner/name split happens outside
any error handling — one record whose `full_name` has no '/' aborts the
whole enrichment batch; when every `full_name` contains a '/', the batch
succeeds (and per-record isolation applies). -/
theorem c10_split_outside_handler :
    (∀ (fetch : String → String → Option String) (repos : List RepositoryInfo)
       (r : RepositoryInfo), r ∈ repos → ('/' : Char) ∉ r.full_name.data →
      enrichReadmes fetch repos = Except.error ()) ∧
    (∀ (fetch : String → String → Option String) (repos : List RepositoryInfo),
      (∀ r ∈ repos, ('/' : Char) ∈ r.full_name.data) →
      ∃ result, enrichReadmes fetch repos = Except.ok result) := by
  constructor
  · intro fetch repos r hr hslash
    apply exceptMapList_error _ repos r hr
    have hsp := splitFirst_error _ hslash
    simp [hsp]
  · intro fetch repos hall
    apply exceptMapList_all_ok
    intro r hr
    rcases splitFirst_ok _ (hall r hr) with ⟨⟨o, n⟩, hp⟩
    refine ⟨{ r with readme_content := fetch o n }, ?_⟩
    rw [hp]
    rfl

/-- Witness for C10: a single record named "noslash" aborts enrichment. -/
theorem c10_witness :
    enrichReadmes (fun _ _ => none)
      [{ name := "n", full_name := "noslash", description := "", stars := 0,
         language := "L", url := "u", readme_content := none }] =
      Except.error () :=
  c10_split_outside_handler.1 _ _ _ (List.mem_singleton_self _) (by decide)

/-- C3: the README fetcher returns an absent result rather than raising on
every failing upstream response — non-success status, transport or parse
exception, or undecodable content — in both variants; and in the
enrichment batch a record's result depends only on the responses for its
own owner/name, so one repository's failure never affects another's
result. -/
theorem c3_fetch_never_raises :
    (∀ resp : ReadmeResponse, readmeRespFails resp →
      get_readme_content_app resp = none) ∧
    (∀ (contents : String → ContentsResp) (download : String → DownloadResp),
      (∀ f, contentsAttemptFails (contents f) download) →
      get_readme_content_legacy contents download = none) ∧
    (∀ (repos : List RepositoryInfo) (env env2 : String → String → ReadmeResponse)
       (result result2 : List RepositoryInfo) (i : Nat) (hi : i < repos.length)
       (o n : String),
      enrichReadmes (fun ow rp => get_readme_content_app (env ow rp)) repos =
        Except.ok result →
      enrichReadmes (fun ow rp => get_readme_content_app (env2 ow rp)) repos =
        Except.ok result2 →
      splitFirst (repos.get ⟨i, hi⟩).full_name = Except.ok (o, n) →
      env o n = env2 o n →
      result[i]? = result2[i]?) := by
  refine ⟨?_, ?_, ?_⟩
  · intro resp h
    cases resp with
    | httpError => rfl
    | raiseError => rfl
    | success content encoding =>
      rcases h with ⟨he, hd⟩
      simp only [get_readme_content_app, tryGetReadmeApp]
      simp [he, hd]
  · intro contents download hall
    show readmeFilesGo contents download readme_files = none
    simp only [readme_files, readmeFilesGo,
      legacyAttempt_of_fails _ _ (hall "README.md"),
      legacyAttempt_of_fails _ _ (hall "README.rst"),
      legacyAttempt_of_fails _ _ (hall "README.txt"),
      legacyAttempt_of_fails _ _ (hall "README")]
  · intro repos env env2 result result2 i hi o n h1 h2 hsp henv
    rcases (enrichReadmes_ok_spec _ _ _ h1).2 i hi with ⟨o1, n1, hsp1, hr1⟩
    rcases (enrichReadmes_ok_spec _ _ _ h2).2 i hi with ⟨o2, n2, hsp2, hr2⟩
    rw [hsp] at hsp1 hsp2
    injection hsp1 with e1
    injection hsp2 with e2
    rw [Prod.mk.injEq] at e1 e2
    obtain ⟨ho1, hn1⟩ := e1
    obtain ⟨ho2, hn2⟩ := e2
    subst ho1; subst hn1; subst ho2; subst hn2
    rw [hr1, hr2, henv]

/-- Witness for C3: a 404 from the readme endpoint yields an absent README. -/
theorem c3_witness :
    get_readme_content_app ReadmeResponse.httpError = none :=
  c3_fetch_never_raises.1 ReadmeResponse.httpError (by trivial)

/-- Binding a successful `Except` value applies the continuation. -/
theorem except_bind_ok {α β : Type} (a : α) (f : α → Except Unit β) :
    ((Except.ok a : Except Unit α) >>= f) = f a := rfl

/-- Binding a raised `Except` value propagates the error. -/
theorem except_bind_error {α β : Type} (e : Unit) (f : α → Except Unit β) :
    ((Except.error e : Except Unit α) >>= f) = Except.error e := rfl

/-- A pure `Except` value is a success. -/
theorem except_pure {α : Type} (a : α) :
    (pure a : Except Unit α) = Except.ok a := rfl

/-- C4: `search_and_get_readmes` returns the records in the same order and
with the same count as the search produced, attaches to each record exactly
the README fetched for its own owner/name split, and changes nothing but
the `readme_content` field — in both variants. -/
theorem c4_enrich_frame :
    (∀ (upstream : Nat → PageResult) (env : String → String → ReadmeResponse)
       (limit : Nat) (result : List RepositoryInfo),
      search_and_get_readmes_app upstream env limit = Except.ok result →
      result.length = (search_repositories_app upstream limit).length ∧
      ∀ i (hi : i < (search_repositories_app upstream limit).length), ∃ o n,
        splitFirst ((search_repositories_app upstream limit).get ⟨i, hi⟩).full_name =
          Except.ok (o, n) ∧
        result[i]? =
          some { (search_repositories_app upstream limit).get ⟨i, hi⟩ with
                 readme_content := get_readme_content_app (env o n) }) ∧
    (∀ (upstream : Nat → PageResult)
       (contents : String → String → String → ContentsResp)
       (download : String → DownloadResp) (limit : Nat)
       (repos result : List RepositoryInfo),
      search_repositories_legacy upstream limit = Except.ok repos →
      search_and_get_readmes_legacy upstream contents download limit = Except.ok result →
      result.length = repos.length ∧
      ∀ i (hi : i < repos.length), ∃ o n,
        splitFirst (repos.get ⟨i, hi⟩).full_name = Except.ok (o, n) ∧
        result[i]? =
          some { repos.get ⟨i, hi⟩ with
                 readme_content := get_readme_content_legacy (contents o n) download }) := by
  constructor
  · intro upstream env limit result h
    exact enrichReadmes_ok_spec _ _ _ h
  · intro upstream contents download limit repos result h1 h2
    unfold search_and_get_readmes_legacy at h2
    rw [h1, except_bind_ok] at h2
    exact enrichReadmes_ok_spec _ _ _ h2

/-- Witness for C4 at a one-repository search with a failing readme endpoint. -/
theorem c4_witness :
    ([({ name := "n", full_name := "o/n", description := "", stars := 1,
         language := "Unknown", url := "u", readme_content := none } :
        RepositoryInfo)].length) =
      (search_repositories_app upstreamOne 1).length := by
  have hloop : searchLoop upstreamOne 1 [] 1 = ([1], [rawOne]) :=
    searchLoop_short upstreamOne 1 [] 1 [rawOne] (by decide) rfl (by decide)
  have hok : search_and_get_readmes_app upstreamOne
      (fun _ _ => ReadmeResponse.httpError) 1 =
      Except.ok [{ name := "n", full_name := "o/n", description := "", stars := 1,
                   language := "Unknown", url := "u", readme_content := none }] := by
    simp only [search_and_get_readmes_app, search_repositories_app, hloop]
    rfl
  exact (c4_enrich_frame.1 upstreamOne (fun _ _ => ReadmeResponse.httpError) 1 _ hok).1

/-- C1: the search returns at most `limit` records, and whenever the
upstream pages are well-formed (non-negative star counts, full names
containing '/'), every returned record has a non-negative star count and a
full name containing '/' — in both variants. -/
theorem c1_search_bounds (upstream : Nat → PageResult) (limit : Nat)
    (hwf : ∀ p items r, upstream p = PageResult.success items → r ∈ items →
      (∀ s, r.stargazers_count = some s → (0 : Int) ≤ s) ∧
      ('/' : Char) ∈ r.full_name.data) :
    ((search_repositories_app upstream limit).length ≤ limit ∧
     ∀ r ∈ search_repositories_app upstream limit,
       (0 : Int) ≤ r.stars ∧ ('/' : Char) ∈ r.full_name.data) ∧
    (∀ result, search_repositories_legacy upstream limit = Except.ok result →
      result.length ≤ limit ∧
      ∀ r ∈ result, (0 : Int) ≤ r.stars ∧ ('/' : Char) ∈ r.full_name.data) := by
  have hraw : ∀ r ∈ (searchLoop upstream limit [] 1).2,
      (∀ s, r.stargazers_count = some s → (0 : Int) ≤ s) ∧
      ('/' : Char) ∈ r.full_name.data := by
    intro r hr
    rcases searchLoop_mem upstream limit 3 1 [] (by omega) r hr with h | ⟨p, its, hp, hin⟩
    · cases h
    · exact hwf p its r hp hin
  constructor
  · constructor
    · simp only [search_repositories_app, List.length_map, List.length_take]
      exact min_le_left _ _
    · intro r hr
      simp only [search_repositories_app, List.mem_map] at hr
      rcases hr with ⟨raw, hmem, rfl⟩
      have hrawin : raw ∈ (searchLoop upstream limit [] 1).2 :=
        (List.take_sublist _ _).subset hmem
      rcases hraw raw hrawin with ⟨hstars, hslash⟩
      constructor
      · cases hsc : raw.stargazers_count with
        | none => simp [toRepoInfoApp, hsc]
        | some s => simpa [toRepoInfoApp, hsc] using hstars s hsc
      · exact hslash
  · intro result hok
    replace hok : (exceptMapList toRepoInfoLegacy ((searchLoop upstream limit [] 1).2) >>=
        fun repositories =>
          pure ((repositories.mergeSort fun a b =>
            decide (b.stars ≤ a.stars)).take limit)) = Except.ok result := hok
    cases hmap : exceptMapList toRepoInfoLegacy ((searchLoop upstream limit [] 1).2) with
    | error e =>
      rw [hmap, except_bind_error] at hok
      exact Except.noConfusion hok
    | ok repos =>
      rw [hmap, except_bind_ok, except_pure] at hok
      injection hok with hres
      subst hres
      constructor
      · simp only [List.length_take]
        exact min_le_left _ _
      · intro r hr
        have hr2 : r ∈ repos.mergeSort (fun a b => decide (b.stars ≤ a.stars)) :=
          (List.take_sublist _ _).subset hr
        have hr3 : r ∈ repos :=
          (List.mergeSort_perm repos _).mem_iff.mp hr2
        rcases exceptMapList_ok_mem toRepoInfoLegacy _ repos hmap r hr3 with
          ⟨raw, hrawmem, hconv⟩
        have hrawin : raw ∈ (searchLoop upstream limit [] 1).2 := hrawmem
        rcases hraw raw hrawin with ⟨hstars, hslash⟩
        cases hsc : raw.stargazers_count with
        | none =>
          simp only [toRepoInfoLegacy, hsc] at hconv
          exact Except.noConfusion hconv
        | some s =>
          simp only [toRepoInfoLegacy, hsc] at hconv
          injection hconv with h2
          subst h2
          exact ⟨hstars s hsc, hslash⟩

/-- Witness for C1 at a one-record well-formed upstream. -/
theorem c1_witness : (search_repositories_app upstreamOne 1).length ≤ 1 := by
  have hwf : ∀ p items r, upstreamOne p = PageResult.success items → r ∈ items →
      (∀ s, r.stargazers_count = some s → (0 : Int) ≤ s) ∧
      ('/' : Char) ∈ r.full_name.data := by
    intro p items r hp hr
    by_cases hp1 : p = 1
    · subst hp1
      simp only [upstreamOne, if_pos] at hp
      injection hp with hitems
      subst hitems
      have hr1 : r = rawOne := List.mem_singleton.mp hr
      subst hr1
      constructor
      · intro s hs
        simp only [rawOne, Option.some.injEq] at hs
        subst hs
        decide
      · decide
    · simp [upstreamOne, hp1] at hp
  exact (c1_search_bounds upstreamOne 1 hwf).1.1

/-- C2 counterexample: the app variant's `search_repositories` does not
sort — with an upstream page listing a one-star record before a five-star
record, the output is not sorted by star count descending. -/
theorem c2_counterexample :
    ¬ List.Pairwise (fun a b : RepositoryInfo => b.stars ≤ a.stars)
        (search_repositories_app upstreamUnsorted 2) := by
  have hloop : searchLoop upstreamUnsorted 2 [] 1 = ([1], [rawLow, rawHigh]) :=
    searchLoop_short upstreamUnsorted 2 [] 1 [rawLow, rawHigh] (by decide) rfl (by decide)
  have hlist : search_repositories_app upstreamUnsorted 2 =
      [toRepoInfoApp rawLow, toRepoInfoApp rawHigh] := by
    simp only [search_repositories_app, hloop]
    rfl
  intro hpw
  rw [hlist] at hpw
  have h5 := (List.pairwise_cons.mp hpw).1 (toRepoInfoApp rawHigh) (by simp)
  revert h5
  decide

/-- C2 (amended): the legacy variant's `search_repositories` output is
sorted by star count in descending order for every upstream; the app
variant returns records in arrival order (see the counterexample). -/
theorem c2_legacy_sorted (upstream : Nat → PageResult) (limit : Nat)
    (result : List RepositoryInfo)
    (h : search_repositories_legacy upstream limit = Except.ok result) :
    List.Pairwise (fun a b : RepositoryInfo => b.stars ≤ a.stars) result := by
  replace h : (exceptMapList toRepoInfoLegacy ((searchLoop upstream limit [] 1).2) >>=
      fun repositories =>
        pure ((repositories.mergeSort fun a b =>
          decide (b.stars ≤ a.stars)).take limit)) = Except.ok result := h
  cases hmap : exceptMapList toRepoInfoLegacy ((searchLoop upstream limit [] 1).2) with
  | error e =>
    rw [hmap, except_bind_error] at h
    exact Except.noConfusion h
  | ok repos =>
    rw [hmap, except_bind_ok, except_pure] at h
    injection h with hres
    subst hres
    have htrans : ∀ a b c : RepositoryInfo,
        decide (b.stars ≤ a.stars) = true → decide (c.stars ≤ b.stars) = true →
        decide (c.stars ≤ a.stars) = true := by
      intro a b c hab hbc
      simp only [decide_eq_true_eq] at hab hbc ⊢
      exact le_trans hbc hab
    have htotal : ∀ a b : RepositoryInfo,
        (decide (b.stars ≤ a.stars) || decide (a.stars ≤ b.stars)) = true := by
      intro a b
      rcases le_total b.stars a.stars with h1 | h1 <;> simp [h1]
    have hs := List.sorted_mergeSort htrans htotal repos
    have hs2 : List.Pairwise (fun a b : RepositoryInfo => b.stars ≤ a.stars)
        (repos.mergeSort fun a b => decide (b.stars ≤ a.stars)) :=
      hs.imp (fun hab => of_decide_eq_true hab)
    exact List.Pairwise.sublist (List.take_sublist limit _) hs2

/-- Witness for C2's amended theorem: the legacy search on an all-failing
upstream returns the empty (trivially sorted) sequence. -/
theorem c2_witness :
    List.Pairwise (fun a b : RepositoryInfo => b.stars ≤ a.stars)
      ([] : List RepositoryInfo) := by
  have hloop : searchLoop upstreamAllFail 1 [] 1 = ([1], []) :=
    searchLoop_fail upstreamAllFail 1 [] 1 (by decide) rfl
  have hok : search_repositories_legacy upstreamAllFail 1 = Except.ok [] := by
    show (exceptMapList toRepoInfoLegacy ((searchLoop upstreamAllFail 1 [] 1).2) >>=
      fun repositories =>
        pure ((repositories.mergeSort fun a b =>
          decide (b.stars ≤ a.stars)).take 1)) = Except.ok []
    rw [hloop]
    simp only [exceptMapList, except_bind_ok, List.mergeSort_nil, List.take_nil,
      except_pure]
  exact c2_legacy_sorted upstreamAllFail 1 [] hok

/-- C5: with a reachable (all-success) upstream, `search_repositories`
requests pages of size `min(100, limit * 2)` sequentially from page 1, and
the pagination stops exactly when three pages have been fetched, or the
accumulated results reach at least `limit * 2` items, or a page returns
fewer items than the requested page size — and at no earlier point. -/
theorem c5_pagination (upstream : Nat → PageResult) (items : Nat → List RawRepo)
    (limit : Nat) (hsucc : ∀ p, upstream p = PageResult.success (items p)) :
    per_page limit = min 100 (limit * 2) ∧
    ∃ k, k ≤ 3 ∧
      (searchLoop upstream limit [] 1).1 = List.range' 1 k ∧
      (searchLoop upstream limit [] 1).2 = accUpTo items k ∧
      (k = 3 ∨ limit * 2 ≤ (accUpTo items k).length ∨
        (1 ≤ k ∧ (items k).length < per_page limit)) ∧
      (∀ j, j < k → (accUpTo items j).length < limit * 2) ∧
      (∀ j, 1 ≤ j → j < k → per_page limit ≤ (items j).length) := by
  refine ⟨rfl, ?_⟩
  by_cases h0 : limit * 2 = 0
  · have hstop := searchLoop_stop upstream limit [] 1 (by simp [h0])
    refine ⟨0, by omega, by simp [hstop, List.range'], by simp [hstop, accUpTo],
      Or.inr (Or.inl (by simp [accUpTo]; omega)), ?_, ?_⟩
    · intro j hj; omega
    · intro j h1 h2; omega
  · have hc1 : ([] : List RawRepo).length < limit * 2 ∧ (1 : Nat) ≤ 3 :=
      ⟨by simp; omega, by omega⟩
    by_cases hs1 : (items 1).length < per_page limit
    · have hloop := searchLoop_short upstream limit [] 1 (items 1) hc1 (hsucc 1) hs1
      refine ⟨1, by omega, by simp [hloop, List.range'], by simp [hloop, accUpTo],
        Or.inr (Or.inr ⟨by omega, hs1⟩), ?_, ?_⟩
      · intro j hj
        interval_cases j
        simpa [accUpTo] using Nat.pos_of_ne_zero h0
      · intro j h1 h2; omega
    · have hstep1 := searchLoop_cont upstream limit [] 1 (items 1) hc1 (hsucc 1) hs1
      by_cases h1 : (accUpTo items 1).length < limit * 2
      · have hc2 : ([] ++ items 1).length < limit * 2 ∧ (2 : Nat) ≤ 3 :=
          ⟨by simpa [accUpTo] using h1, by omega⟩
        by_cases hs2 : (items 2).length < per_page limit
        · have hstep2 :=
            searchLoop_short upstream limit ([] ++ items 1) 2 (items 2) hc2 (hsucc 2) hs2
          have e1 : searchLoop upstream limit [] 1 =
              ([1, 2], ([] ++ items 1) ++ items 2) := by
            rw [hstep1, hstep2]
          refine ⟨2, by omega, by simp [e1, List.range'], by simp [e1, accUpTo],
            Or.inr (Or.inr ⟨by omega, hs2⟩), ?_, ?_⟩
          · intro j hj
            interval_cases j
            · simpa [accUpTo] using Nat.pos_of_ne_zero h0
            · exact h1
          · intro j hj1 hj2
            interval_cases j
            omega
        · have hstep2 :=
            searchLoop_cont upstream limit ([] ++ items 1) 2 (items 2) hc2 (hsucc 2) hs2
          by_cases h2 : (accUpTo items 2).length < limit * 2
          · have hc3 : (([] ++ items 1) ++ items 2).length < limit * 2 ∧ (3 : Nat) ≤ 3 :=
              ⟨by simpa [accUpTo] using h2, by omega⟩
            by_cases hs3 : (items 3).length < per_page limit
            · have hstep3 :=
                searchLoop_short upstream limit (([] ++ items 1) ++ items 2) 3 (items 3)
                  hc3 (hsucc 3) hs3
              have e1 : searchLoop upstream limit [] 1 =
                  ([1, 2, 3], ((([] ++ items 1) ++ items 2) ++ items 3)) := by
                rw [hstep1, hstep2, hstep3]
              refine ⟨3, by omega, by simp [e1, List.range'], by simp [e1, accUpTo],
                Or.inl rfl, ?_, ?_⟩
              · intro j hj
                interval_cases j
                · simpa [accUpTo] using Nat.pos_of_ne_zero h0
                · exact h1
                · exact h2
              · intro j hj1 hj2
                interval_cases j
                · omega
                · omega
            · have hstep3 :=
                searchLoop_cont upstream limit (([] ++ items 1) ++ items 2) 3 (items 3)
                  hc3 (hsucc 3) hs3
              have hstop4 := searchLoop_stop upstream limit
                ((([] ++ items 1) ++ items 2) ++ items 3) 4 (by simp)
              have e1 : searchLoop upstream limit [] 1 =
                  ([1, 2, 3], ((([] ++ items 1) ++ items 2) ++ items 3)) := by
                rw [hstep1, hstep2, hstep3, hstop4]
              refine ⟨3, by omega, by simp [e1, List.range'], by simp [e1, accUpTo],
                Or.inl rfl, ?_, ?_⟩
              · intro j hj
                interval_cases j
                · simpa [accUpTo] using Nat.pos_of_ne_zero h0
                · exact h1
                · exact h2
              · intro j hj1 hj2
                interval_cases j
                · omega
                · omega
          · have hstop3 := searchLoop_stop upstream limit
              (([] ++ items 1) ++ items 2) 3 (by simp [accUpTo] at h2 ⊢; omega)
            have e1 : searchLoop upstream limit [] 1 =
                ([1, 2], ([] ++ items 1) ++ items 2) := by
              rw [hstep1, hstep2, hstop3]
            refine ⟨2, by omega, by simp [e1, List.range'], by simp [e1, accUpTo],
              Or.inr (Or.inl (by simp [accUpTo] at h2 ⊢; omega)), ?_, ?_⟩
            · intro j hj
              interval_cases j
              · simpa [accUpTo] using Nat.pos_of_ne_zero h0
              · exact h1
            · intro j hj1 hj2
              interval_cases j
              omega
      · have hstop2 := searchLoop_stop upstream limit ([] ++ items 1) 2
          (by simp [accUpTo] at h1 ⊢; omega)
        have e1 : searchLoop upstream limit [] 1 = ([1], [] ++ items 1) := by
          rw [hstep1, hstop2]
        refine ⟨1, by omega, by simp [e1, List.range'], by simp [e1, accUpTo],
          Or.inr (Or.inl (by simp [accUpTo] at h1 ⊢; omega)), ?_, ?_⟩
        · intro j hj
          interval_cases j
          simpa [accUpTo] using Nat.pos_of_ne_zero h0
        · intro j h1 h2; omega

/-- Witness for C5 on an upstream returning an empty first page. -/
theorem c5_witness :
    per_page 1 = min 100 (1 * 2) ∧
    ∃ k, k ≤ 3 ∧
      (searchLoop (fun _ => PageResult.success []) 1 [] 1).1 = List.range' 1 k ∧
      (searchLoop (fun _ => PageResult.success []) 1 [] 1).2 =
        accUpTo (fun _ => []) k ∧
      (k = 3 ∨ 1 * 2 ≤ (accUpTo (fun _ => []) k).length ∨
        (1 ≤ k ∧ ((fun _ => ([] : List RawRepo)) k).length < per_page 1)) ∧
      (∀ j, j < k → (accUpTo (fun _ => []) j).length < 1 * 2) ∧
      (∀ j, 1 ≤ j → j < k → per_page 1 ≤ ((fun _ => ([] : List RawRepo)) j).length) :=
  c5_pagination (fun _ => PageResult.success []) (fun _ => []) 1 (fun _ => rfl)

/-- C6: when pages before `j` succeed without triggering a stop and page
`j` fails (non-success status or transport exception), the pagination
stops at page `j`, requests it exactly once (no retry), and the search
returns the records accumulated from the earlier successful pages
(possibly none), without raising. -/
theorem c6_failure_stops (upstream : Nat → PageResult) (items : Nat → List RawRepo)
    (limit j : Nat) (hj1 : 1 ≤ j) (hj3 : j ≤ 3)
    (hsucc : ∀ p, 1 ≤ p → p < j → upstream p = PageResult.success (items p))
    (hfail : upstream j = PageResult.failure)
    (hacc : ∀ i, i < j → (accUpTo items i).length < limit * 2)
    (hns : ∀ p, 1 ≤ p → p < j → per_page limit ≤ (items p).length) :
    (searchLoop upstream limit [] 1).1 = List.range' 1 j ∧
    ((searchLoop upstream limit [] 1).1).count j = 1 ∧
    (searchLoop upstream limit [] 1).2 = accUpTo items (j - 1) ∧
    search_repositories_app upstream limit =
      ((accUpTo items (j - 1)).take limit).map toRepoInfoApp := by
  interval_cases j
  · have hc1 : ([] : List RawRepo).length < limit * 2 ∧ (1 : Nat) ≤ 3 :=
      ⟨by simpa [accUpTo] using hacc 0 (by omega), by omega⟩
    have e1 : searchLoop upstream limit [] 1 = ([1], []) :=
      searchLoop_fail upstream limit [] 1 hc1 hfail
    refine ⟨by simp [e1, List.range'], by rw [e1]; rfl, by simp [e1, accUpTo], ?_⟩
    simp [search_repositories_app, e1, accUpTo]
  · have hc1 : ([] : List RawRepo).length < limit * 2 ∧ (1 : Nat) ≤ 3 :=
      ⟨by simpa [accUpTo] using hacc 0 (by omega), by omega⟩
    have hns1 : ¬ (items 1).length < per_page limit := by
      have := hns 1 (by omega) (by omega)
      omega
    have hstep1 := searchLoop_cont upstream limit [] 1 (items 1) hc1
      (hsucc 1 (by omega) (by omega)) hns1
    have hc2 : ([] ++ items 1).length < limit * 2 ∧ (2 : Nat) ≤ 3 :=
      ⟨by simpa [accUpTo] using hacc 1 (by omega), by omega⟩
    have hfail2 := searchLoop_fail upstream limit ([] ++ items 1) 2 hc2 hfail
    have e1 : searchLoop upstream limit [] 1 = ([1, 2], [] ++ items 1) := by
      rw [hstep1, hfail2]
    refine ⟨by simp [e1, List.range'], by rw [e1]; rfl, by simp [e1, accUpTo], ?_⟩
    simp [search_repositories_app, e1, accUpTo]
  · have hc1 : ([] : List RawRepo).length < limit * 2 ∧ (1 : Nat) ≤ 3 :=
      ⟨by simpa [accUpTo] using hacc 0 (by omega), by omega⟩
    have hns1 : ¬ (items 1).length < per_page limit := by
      have := hns 1 (by omega) (by omega)
      omega
    have hstep1 := searchLoop_cont upstream limit [] 1 (items 1) hc1
      (hsucc 1 (by omega) (by omega)) hns1
    have hc2 : ([] ++ items 1).length < limit * 2 ∧ (2 : Nat) ≤ 3 :=
      ⟨by simpa [accUpTo] using hacc 1 (by omega), by omega⟩
    have hns2 : ¬ (items 2).length < per_page limit := by
      have := hns 2 (by omega) (by omega)
      omega
    have hstep2 := searchLoop_cont upstream limit ([] ++ items 1) 2 (items 2) hc2
      (hsucc 2 (by omega) (by omega)) hns2
    have hc3 : (([] ++ items 1) ++ items 2).length < limit * 2 ∧ (3 : Nat) ≤ 3 :=
      ⟨by simpa [accUpTo] using hacc 2 (by omega), by omega⟩
    have hfail3 := searchLoop_fail upstream limit (([] ++ items 1) ++ items 2) 3 hc3 hfail
    have e1 : searchLoop upstream limit [] 1 =
        ([1, 2, 3], ([] ++ items 1) ++ items 2) := by
      rw [hstep1, hstep2, hfail3]
    refine ⟨by simp [e1, List.range'], by rw [e1]; rfl, by simp [e1, accUpTo], ?_⟩
    simp [search_repositories_app, e1, accUpTo]

/-- Witness for C6: the very first page fails and the search returns the
empty sequence. -/
theorem c6_witness :
    (searchLoop upstreamAllFail 1 [] 1).1 = List.range' 1 1 ∧
    ((searchLoop upstreamAllFail 1 [] 1).1).count 1 = 1 ∧
    (searchLoop upstreamAllFail 1 [] 1).2 = accUpTo (fun _ => []) 0 ∧
    search_repositories_app upstreamAllFail 1 =
      ((accUpTo (fun _ => []) 0).take 1).map toRepoInfoApp :=
  c6_failure_stops upstreamAllFail (fun _ => []) 1 1 (by omega) (by omega)
    (fun _ h1 h2 => absurd h2 (by omega)) rfl
    (fun i hi => by interval_cases i; simp [accUpTo])
    (fun _ h1 h2 => absurd h2 (by omega))
